import Mathlib

/-
Verification development for the let-go interpreter core.

The definitions below are a shallow embedding of the Go sources:
the `vm` package (`CodeChunk`, `Frame`, `Frame.Run`) and the native
primitives installed into the `lang` namespace by the `rt` package.
Machine integers (Go `int`, 64-bit) are modelled as `Int` with an
explicit two's-complement wrap where overflow can matter; fallible
operations return an explicit result type whose `crash` constructor
models a Go runtime panic (out-of-bounds slice access, division by
zero), distinct from the error values the code returns deliberately.
-/

namespace LetGo

/-! ## Opcodes (iota numbering from the Go source) -/

def OPNOP : Nat := 0
def OPLDC : Nat := 1
def OPLDA : Nat := 2
def OPINV : Nat := 3
def OPRET : Nat := 4
def OPBRT : Nat := 5
def OPBRF : Nat := 6
def OPJMP : Nat := 7
def OPPOP : Nat := 8
def OPPON : Nat := 9
def OPDPN : Nat := 10
def OPSTV : Nat := 11
def OPLDV : Nat := 12
def OPLDK : Nat := 13
def OPPAK : Nat := 14

/-! ## Values -/

/-- The universal tagged datum of the interpreter.  The Go `Value`
interface and its concrete implementations live in a source file that
only the VM code references here; the closed set of variants is the
one the spec lists.  Functions are represented by an identifier `fid`
into a host table (the `Host` environment below), because native
functions are host-supplied callables and the `Invoke` method of
compiled `Func` values is defined outside the VM loop; a `Var` is
represented by an identifier into a mutable store carried alongside
the frame. -/
inductive Value where
  | nil
  | bool (b : Bool)
  | int (n : Int)
  | str (s : String)
  | keyword (s : String)
  | symbol (s : String)
  | listV (xs : List Value)
  | vecV (xs : List Value)
  | varRef (id : Nat)
  | nativeFn (fid : Nat)
  | func (fid : Nat) (closedOvers : List Value)

/-- Modelled from the spec: truthiness — `Nil` and `Boolean(false)` are
falsy; everything else is truthy.  (`IsTruthy` lives in the value layer,
which is not among the given sources.) -/
def IsTruthy : Value → Bool
  | .nil => false
  | .bool b => b
  | _ => true

/-- A value casts to the Go `Fn` interface (the `fraw.(Fn)` type
assertion in OPINV) exactly when it is a native function or a compiled
`Func`; the result is the identifier used to invoke it through the
host environment. -/
def Value.invokeFn : Value → Option Nat
  | .nativeFn fid => some fid
  | .func fid _ => some fid
  | _ => none

/-- Go `cls.Type() != FuncType` check used by OPPAK: only compiled
`Func` values have `FuncType`; native functions have `NativeFnType`. -/
def Value.isFuncType : Value → Bool
  | .func _ _ => true
  | _ => false

/-! ## Errors and outcomes -/

/-- Error values produced by the VM: `NewExecutionError(msg)` possibly
wrapping a causing error via `.Wrap(err)`, and `NewTypeError` (only the
message part is modelled). -/
inductive VmError where
  | executionError (msg : String) (wrapped : Option VmError)
  | typeError (msg : String)

def VmError.isExecutionError : VmError → Bool
  | .executionError _ _ => true
  | .typeError _ => false

/-- Result of a fallible frame operation: `ok` mirrors a nil-error Go
return, `err` a non-nil error return, and `crash` a Go runtime panic
(e.g. an out-of-range slice index), which the Go code does not guard
against. -/
inductive Res (α : Type) where
  | ok (a : α)
  | err (e : VmError)
  | crash (msg : String)

/-! ## Chunks and frames -/

/-- `CodeChunk`: constant pool, bytecode stream (bytes), and the
declared maximum operand-stack depth.  The Go `length` field is kept
equal to `len(code)` by every writer, so it is `code.length` here. -/
structure Chunk where
  maxStack : Nat
  consts : List Value
  code : List Nat

def defaultStackSize : Nat := 32

/-- `Frame`: a single interpreter context.  The cached counters `argc`
and `constsc` of the Go struct equal the lengths of the corresponding
lists. -/
structure Frame where
  stack : List Value
  args : List Value
  closedOvers : List Value
  consts : List Value
  code : List Nat
  ip : Nat
  sp : Nat

/-- `NewFrame`: the stack is allocated with `make([]Value, code.maxStack)`
(Go zero values, modelled as `nil`), `closedOvers` is left at its zero
value (empty), and `ip = sp = 0`. -/
def NewFrame (c : Chunk) (args : List Value) : Frame :=
  { stack := List.replicate c.maxStack Value.nil
    args := args
    closedOvers := []
    consts := c.consts
    code := c.code
    ip := 0
    sp := 0 }

/-- `Frame.Push`: the overflow guard compares `sp` against
`defaultStackSize-1`, not against the length of the allocated stack;
a write at `sp ≥ len(stack)` is a Go runtime panic. -/
def Frame.push (f : Frame) (v : Value) : Res Frame :=
  if f.sp ≥ defaultStackSize - 1 then
    .err (.executionError "stack overflow" none)
  else if f.sp < f.stack.length then
    .ok { f with stack := f.stack.set f.sp v, sp := f.sp + 1 }
  else
    .crash "index out of range"

/-- `Frame.Pop`: decrement `sp` and read the cell there. -/
def Frame.pop (f : Frame) : Res (Value × Frame) :=
  if f.sp = 0 then
    .err (.executionError "stack underflow" none)
  else if f.sp - 1 < f.stack.length then
    .ok (f.stack.getD (f.sp - 1) Value.nil, { f with sp := f.sp - 1 })
  else
    .crash "index out of range"

/-- `Frame.Nth`: read the value at depth `n` (0 = top) without popping. -/
def Frame.nth (f : Frame) (n : Nat) : Res Value :=
  if (f.sp : Int) - 1 - (n : Int) < 0 then
    .err (.executionError "Nth: stack underflow" none)
  else if f.sp - 1 - n < f.stack.length then
    .ok (f.stack.getD (f.sp - 1 - n) Value.nil)
  else
    .crash "index out of range"

/-- `Frame.Mult`: the slice `stack[sp-start-count : sp-start]`.  The
Go guard `count < 0` cannot fire here because operands are decoded from
a `uint32` and are never negative; slicing past the end of the stack
array is a runtime panic. -/
def Frame.mult (f : Frame) (start count : Nat) : Res (List Value) :=
  if (f.sp : Int) - (start : Int) - (count : Int) < 0 then
    .err (.executionError "Mult: stack underflow" none)
  else if f.sp - start ≤ f.stack.length then
    .ok ((f.stack.take (f.sp - start)).drop (f.sp - start - count))
  else
    .crash "slice bounds out of range"

/-- `Frame.Drop`: errors when the stack is empty (`sp-1 < 0`) even for
`n = 0`, and when dropping more cells than are present. -/
def Frame.dropN (f : Frame) (n : Nat) : Res Frame :=
  if (f.sp : Int) - 1 < 0 then
    .err (.executionError "Drop: stack underflow" none)
  else if (f.sp : Int) - (n : Int) < 0 then
    .err (.executionError "Drop: stack underflow" none)
  else
    .ok { f with sp := f.sp - n }

/-- `CodeChunk.Get32`: little-endian 32-bit operand fetch with the
bounds check of the source (`idx >= length || idx+4 > length`). -/
def chunkGet32 (code : List Nat) (idx : Nat) : Res Nat :=
  if idx ≥ code.length ∨ idx + 4 > code.length then
    .err (.executionError "bytecode wide fetch out of bounds" none)
  else
    .ok (code.getD idx 0 + 256 * code.getD (idx + 1) 0 +
         65536 * code.getD (idx + 2) 0 + 16777216 * code.getD (idx + 3) 0)

/-- Opcode fetch as `Frame.Run` performs it: `inst, _ := f.code.Get(f.ip)`
DISCARDS the error that `CodeChunk.Get` returns for an out-of-bounds
index, leaving `inst` at the zero value 0 (= OPNOP). -/
def fetchOp (code : List Nat) (ip : Nat) : Nat :=
  if ip ≥ code.length then 0 else code.getD ip 0

/-! ## The machine -/

/-- Machine state: the running frame together with the store of Var
root values (a Var with identifier `id` has root `vars[id]`);
`Var.SetRoot` and `Var.Deref` act on this store. -/
structure Mach where
  fr : Frame
  vars : List Value

/-- Modelled from the spec: the `Fn.Invoke` implementations (native
call-out and compiled-function invocation via a fresh frame) live
outside the VM loop sources; `Frame.Run` treats `fn.Invoke(a)` as an
opaque call returning a single value.  A host environment maps a
function identifier and the argument slice to the returned value. -/
def Host : Type := Nat → List Value → Value

/-- Outcome of one iteration of the `for` loop in `Frame.Run`. -/
inductive Outcome where
  | next (s : Mach)
  | ret (v : Value)
  | fault (e : VmError)
  | crash (msg : String)

/-- One iteration of the interpreter loop of `Frame.Run`, translated
case by case from the Go `switch`. -/
def step (host : Host) (s : Mach) : Outcome :=
  let f := s.fr
  match fetchOp f.code f.ip with
  | 0 => -- OPNOP
    .next ⟨{ f with ip := f.ip + 1 }, s.vars⟩
  | 1 => -- OPLDC
    match chunkGet32 f.code (f.ip + 1) with
    | .err e => .fault (.executionError "const push failed" (some e))
    | .crash m => .crash m
    | .ok idx =>
      if idx ≥ f.consts.length then
        .fault (.executionError "const lookup out of bounds" none)
      else
        match f.push (f.consts.getD idx Value.nil) with
        | .err e => .fault (.executionError "const push failed" (some e))
        | .crash m => .crash m
        | .ok f1 => .next ⟨{ f1 with ip := f1.ip + 5 }, s.vars⟩
  | 2 => -- OPLDA
    match chunkGet32 f.code (f.ip + 1) with
    | .err e => .fault (.executionError "get argument index failed" (some e))
    | .crash m => .crash m
    | .ok idx =>
      if idx ≥ f.args.length then
        .fault (.executionError "argument lookup out of bounds" none)
      else
        match f.push (f.args.getD idx Value.nil) with
        | .err e => .fault (.executionError "argument push failed" (some e))
        | .crash m => .crash m
        | .ok f1 => .next ⟨{ f1 with ip := f1.ip + 5 }, s.vars⟩
  | 3 => -- OPINV
    match chunkGet32 f.code (f.ip + 1) with
    | .err e => .fault (.executionError "INV arg count" (some e))
    | .crash m => .crash m
    | .ok arity =>
      match f.nth arity with
      | .err e => .fault (.executionError "invoke instruction failed" (some e))
      | .crash m => .crash m
      | .ok fraw =>
        match fraw.invokeFn with
        | none => .fault (.typeError "is not a function")
        | some fid =>
          match f.mult 0 arity with
          | .err e => .fault (.executionError "popping arguments failed" (some e))
          | .crash m => .crash m
          | .ok a =>
            let out := host fid a
            match f.dropN (arity + 1) with
            | .err e => .fault (.executionError "cleaning stack after call" (some e))
            | .crash m => .crash m
            | .ok f1 =>
              match f1.push out with
              | .err e => .fault (.executionError "pushing return value failed" (some e))
              | .crash m => .crash m
              | .ok f2 => .next ⟨{ f2 with ip := f2.ip + 5 }, s.vars⟩
  | 4 => -- OPRET
    match f.pop with
    | .err e => .fault (.executionError "return failed" (some e))
    | .crash m => .crash m
    | .ok (v, _) => .ret v
  | 5 => -- OPBRT
    match chunkGet32 f.code (f.ip + 1) with
    | .err e => .fault (.executionError "BRT offset" (some e))
    | .crash m => .crash m
    | .ok offset =>
      match f.pop with
      | .err e => .fault (.executionError "BRT pop condition" (some e))
      | .crash m => .crash m
      | .ok (v, f1) =>
        if ¬ IsTruthy v then .next ⟨{ f1 with ip := f1.ip + 5 }, s.vars⟩
        else .next ⟨{ f1 with ip := f1.ip + offset }, s.vars⟩
  | 6 => -- OPBRF (the Go error messages say BRT, copied verbatim)
    match chunkGet32 f.code (f.ip + 1) with
    | .err e => .fault (.executionError "BRT offset" (some e))
    | .crash m => .crash m
    | .ok offset =>
      match f.pop with
      | .err e => .fault (.executionError "BRT pop condition" (some e))
      | .crash m => .crash m
      | .ok (v, f1) =>
        if IsTruthy v then .next ⟨{ f1 with ip := f1.ip + 5 }, s.vars⟩
        else .next ⟨{ f1 with ip := f1.ip + offset }, s.vars⟩
  | 7 => -- OPJMP
    match chunkGet32 f.code (f.ip + 1) with
    | .err e => .fault (.executionError "JMP offset" (some e))
    | .crash m => .crash m
    | .ok offset => .next ⟨{ f with ip := f.ip + offset }, s.vars⟩
  | 8 => -- OPPOP
    match f.pop with
    | .err e => .fault (.executionError "POP failed" (some e))
    | .crash m => .crash m
    | .ok (_, f1) => .next ⟨{ f1 with ip := f1.ip + 1 }, s.vars⟩
  | 9 => -- OPPON (pops the top BEFORE decoding the operand, as in Go)
    match f.pop with
    | .err e => .fault (.executionError "PON top value" (some e))
    | .crash m => .crash m
    | .ok (v, f1) =>
      match chunkGet32 f1.code (f1.ip + 1) with
      | .err e => .fault (.executionError "PON get argument" (some e))
      | .crash m => .crash m
      | .ok num =>
        match f1.dropN num with
        | .err e => .fault (.executionError "PON drop" (some e))
        | .crash m => .crash m
        | .ok f2 =>
          match f2.push v with
          | .err e => .fault (.executionError "PON push" (some e))
          | .crash m => .crash m
          | .ok f3 => .next ⟨{ f3 with ip := f3.ip + 5 }, s.vars⟩
  | 10 => -- OPDPN
    match chunkGet32 f.code (f.ip + 1) with
    | .err e => .fault (.executionError "DPN get argument" (some e))
    | .crash m => .crash m
    | .ok num =>
      match f.nth num with
      | .err e => .fault (.executionError "DPN get nth" (some e))
      | .crash m => .crash m
      | .ok val =>
        match f.push val with
        | .err e => .fault (.executionError "DPN push" (some e))
        | .crash m => .crash m
        | .ok f1 => .next ⟨{ f1 with ip := f1.ip + 5 }, s.vars⟩
  | 11 => -- OPSTV
    match f.pop with
    | .err e => .fault (.executionError "STV pop value failed" (some e))
    | .crash m => .crash m
    | .ok (val, f1) =>
      match f1.pop with
      | .err e => .fault (.executionError "STV pop var failed" (some e))
      | .crash m => .crash m
      | .ok (varr, f2) =>
        match varr with
        | .varRef id =>
          match f2.push varr with
          | .err e => .fault (.executionError "STV push var failed" (some e))
          | .crash m => .crash m
          | .ok f3 => .next ⟨{ f3 with ip := f3.ip + 1 }, s.vars.set id val⟩
        | _ => .fault (.executionError "STV invalid Var" none)
  | 12 => -- OPLDV (replaces the top slot in place)
    if f.sp = 0 then
      .fault (.executionError "LDV stack underflow" none)
    else if f.sp - 1 < f.stack.length then
      match f.stack.getD (f.sp - 1) Value.nil with
      | .varRef id =>
        .next ⟨{ f with stack := f.stack.set (f.sp - 1) (s.vars.getD id Value.nil), ip := f.ip + 1 }, s.vars⟩
      | _ => .fault (.executionError "LDV invalid var on stack" none)
    else
      .crash "index out of range"
  | 13 => -- OPLDK
    match chunkGet32 f.code (f.ip + 1) with
    | .err e => .fault (.executionError "get closed over index failed" (some e))
    | .crash m => .crash m
    | .ok idx =>
      if idx ≥ f.closedOvers.length then
        .fault (.executionError "closed over lookup out of bounds" none)
      else
        match f.push (f.closedOvers.getD idx Value.nil) with
        | .err e => .fault (.executionError "closed over push failed" (some e))
        | .crash m => .crash m
        | .ok f1 => .next ⟨{ f1 with ip := f1.ip + 5 }, s.vars⟩
  | 14 => -- OPPAK
    match f.pop with
    | .err e => .fault (.executionError "popping closed over value failed" (some e))
    | .crash m => .crash m
    | .ok (val, f1) =>
      if f1.sp = 0 then
        .fault (.executionError "PAK stack overflow" none)
      else if f1.sp - 1 < f1.stack.length then
        match f1.stack.getD (f1.sp - 1) Value.nil with
        | .func fid cos =>
          .next ⟨{ f1 with stack := f1.stack.set (f1.sp - 1) (.func fid (cos ++ [val])), ip := f1.ip + 1 }, s.vars⟩
        | _ => .fault (.executionError "PAK expected a Fn" none)
      else
        .crash "index out of range"
  | _ => .fault (.executionError "unknown instruction" none)

/-- Result of running `Frame.Run` with a step budget: `timeout` means
the loop has not returned within the budget. -/
inductive RunResult where
  | timeout (s : Mach)
  | done (v : Value)
  | fault (e : VmError)
  | crash (msg : String)

/-- Fuel-indexed iteration of the `Frame.Run` loop. -/
def run (host : Host) : Nat → Mach → RunResult
  | 0, s => .timeout s
  | n + 1, s =>
    match step host s with
    | .next s1 => run host n s1
    | .ret v => .done v
    | .fault e => .fault e
    | .crash m => .crash m

/-! ## Native primitives of the `lang` namespace (`rt` package)

Every primitive is a Go closure over `[]vm.Value`; `v.Unbox().(int)`
is a type assertion that panics on a non-Integer value, so the
primitives return `Option Value`, with `none` modelling a Go runtime
panic.  Go `int` is 64-bit and wraps on overflow, hence `wrap64`. -/

/-- Two's-complement wrap of an unbounded integer into the signed
64-bit range, mirroring Go `int` arithmetic. -/
def wrap64 (n : Int) : Int :=
  (n + 2 ^ 63) % 2 ^ 64 - 2 ^ 63

/-- Modelled from the spec: `Unbox` of an `Integer` yields the host
`int`; the `.(int)` assertion on any other variant panics (`none`). -/
def unboxInt : Value → Option Int
  | .int n => some n
  | _ => none

/-- The `+` primitive: fold addition over all arguments starting from 0. -/
def plusFn (vs : List Value) : Option Value :=
  (vs.foldlM (fun n v => (unboxInt v).map (fun m => wrap64 (n + m))) (0 : Int)).map Value.int

/-- The `*` primitive: fold multiplication over all arguments starting from 1. -/
def mulFn (vs : List Value) : Option Value :=
  (vs.foldlM (fun n v => (unboxInt v).map (fun m => wrap64 (n * m))) (1 : Int)).map Value.int

/-- The `-` primitive: `NIL` on no arguments, negation of a single
argument, otherwise left-fold subtraction from the first argument. -/
def subFn (vs : List Value) : Option Value :=
  match vs with
  | [] => some Value.nil
  | v :: rest =>
    match unboxInt v with
    | none => none
    | some n =>
      if rest.isEmpty then some (Value.int (wrap64 (-n)))
      else (rest.foldlM (fun acc w => (unboxInt w).map (fun m => wrap64 (acc - m))) n).map Value.int

/-- The `/` primitive: the accumulator starts at 0 and is divided by
every argument in turn (including the first); `NIL` on no arguments.
Go integer division truncates toward zero and panics on a zero divisor
(the most-negative-over-minus-one case is defined by Go to wrap). -/
def divFn (vs : List Value) : Option Value :=
  if vs.length < 1 then some Value.nil
  else
    (vs.foldlM
      (fun n v =>
        match unboxInt v with
        | none => none
        | some m => if m = 0 then none else some (wrap64 (Int.tdiv n m)))
      (0 : Int)).map Value.int

/-- The `gt` primitive: `NIL` unless called with exactly two arguments,
otherwise the boolean comparison of the two unboxed integers.
(`BooleanType.Box` of a `bool` cannot fail; its error branch is dead.) -/
def gtFn (vs : List Value) : Option Value :=
  if vs.length ≠ 2 then some Value.nil
  else
    match unboxInt (vs.getD 0 Value.nil), unboxInt (vs.getD 1 Value.nil) with
    | some a, some b => some (Value.bool (decide (a > b)))
    | _, _ => none

/-- The `lt` primitive, symmetric to `gt`. -/
def ltFn (vs : List Value) : Option Value :=
  if vs.length ≠ 2 then some Value.nil
  else
    match unboxInt (vs.getD 0 Value.nil), unboxInt (vs.getD 1 Value.nil) with
    | some a, some b => some (Value.bool (decide (a < b)))
    | _, _ => none

/-- Modelled from the spec: the `Seq` interface (the type assertion
`vs[i].(vm.Seq)`) is implemented by the List value; a List is the
singly-linked sequence of the data model. -/
def Value.isSeq : Value → Bool
  | .listV _ => true
  | _ => false

/-- The `cons` primitive: `NIL` unless called with two arguments whose
second is a sequence; otherwise prepend (modelled from the spec:
`Seq.Cons` of a List prepends the element). -/
def consFn (vs : List Value) : Option Value :=
  if vs.length ≠ 2 then some Value.nil
  else
    match vs.getD 1 Value.nil with
    | .listV xs => some (.listV (vs.getD 0 Value.nil :: xs))
    | _ => some Value.nil

/-- The `first` primitive: `NIL` unless called with one sequence
argument (modelled from the spec: `Seq.First` of a List is its head,
and `Nil` for the empty list). -/
def firstFn (vs : List Value) : Option Value :=
  if vs.length ≠ 1 then some Value.nil
  else
    match vs.getD 0 Value.nil with
    | .listV xs => some (xs.headD Value.nil)
    | _ => some Value.nil

/-- The `second` primitive: `seq.Next().First()` (modelled from the
spec: `Seq.Next` of a List is its tail). -/
def secondFn (vs : List Value) : Option Value :=
  if vs.length ≠ 1 then some Value.nil
  else
    match vs.getD 0 Value.nil with
    | .listV xs => some (xs.tail.headD Value.nil)
    | _ => some Value.nil

/-- The `next` primitive: `seq.Next()`, but `NIL` when the resulting
collection counts zero elements. -/
def nextFn (vs : List Value) : Option Value :=
  if vs.length ≠ 1 then some Value.nil
  else
    match vs.getD 0 Value.nil with
    | .listV xs => if xs.tail.length = 0 then some Value.nil else some (.listV xs.tail)
    | _ => some Value.nil

/-! ## Reduction lemmas for the frame operations -/

theorem Frame.push_ok (f : Frame) (v : Value)
    (h1 : f.sp < defaultStackSize - 1) (h2 : f.sp < f.stack.length) :
    f.push v = .ok { f with stack := f.stack.set f.sp v, sp := f.sp + 1 } := by
  unfold Frame.push
  rw [if_neg (by omega), if_pos h2]

theorem Frame.pop_ok (f : Frame)
    (h1 : f.sp ≠ 0) (h2 : f.sp - 1 < f.stack.length) :
    f.pop = .ok (f.stack.getD (f.sp - 1) Value.nil, { f with sp := f.sp - 1 }) := by
  unfold Frame.pop
  rw [if_neg h1, if_pos h2]

theorem Frame.nth_ok (f : Frame) (n : Nat)
    (h1 : n + 1 ≤ f.sp) (h2 : f.sp ≤ f.stack.length) :
    f.nth n = .ok (f.stack.getD (f.sp - 1 - n) Value.nil) := by
  unfold Frame.nth
  rw [if_neg (by omega), if_pos (by omega)]

theorem Frame.mult_ok (f : Frame) (count : Nat)
    (h1 : count ≤ f.sp) (h2 : f.sp ≤ f.stack.length) :
    f.mult 0 count = .ok ((f.stack.take f.sp).drop (f.sp - count)) := by
  unfold Frame.mult
  rw [if_neg (by omega), if_pos (by omega)]
  simp

theorem Frame.dropN_ok (f : Frame) (n : Nat)
    (h1 : 1 ≤ f.sp) (h2 : n ≤ f.sp) :
    f.dropN n = .ok { f with sp := f.sp - n } := by
  unfold Frame.dropN
  rw [if_neg (by omega), if_neg (by omega)]

/-! ## Shared concrete material for the theorems -/

/-- A trivial host environment: every invocation returns `NIL`. -/
def trivialHost : Host := fun _ _ => Value.nil

/-! ## Claim theorems -/

/-- C8: the native arithmetic primitives satisfy `(+)` → 0, `(*)` → 1,
`(- 5)` → -5 and `(- 10 1 2 3)` → 4 (left-fold subtraction from the
first argument). -/
theorem arith_identities :
    plusFn [] = some (Value.int 0) ∧
    mulFn [] = some (Value.int 1) ∧
    subFn [Value.int 5] = some (Value.int (-5)) ∧
    subFn [Value.int 10, Value.int 1, Value.int 2, Value.int 3] = some (Value.int 4) := by
  refine ⟨rfl, rfl, ?_, ?_⟩ <;> norm_num [subFn, unboxInt, wrap64]

/-- C9: `gt` and `lt` return `Nil` for any argument count other than 2,
and `cons`, `first`, `second`, `next` return `Nil` when their sequence
argument is not a sequence value; none of them signals an error. -/
theorem primitives_return_nil_on_bad_input :
    (∀ vs : List Value, vs.length ≠ 2 → gtFn vs = some Value.nil) ∧
    (∀ vs : List Value, vs.length ≠ 2 → ltFn vs = some Value.nil) ∧
    (∀ a b : Value, b.isSeq = false → consFn [a, b] = some Value.nil) ∧
    (∀ a : Value, a.isSeq = false → firstFn [a] = some Value.nil) ∧
    (∀ a : Value, a.isSeq = false → secondFn [a] = some Value.nil) ∧
    (∀ a : Value, a.isSeq = false → nextFn [a] = some Value.nil) := by
  refine ⟨?_, ?_, ?_, ?_, ?_, ?_⟩
  · intro vs h; simp [gtFn, h]
  · intro vs h; simp [ltFn, h]
  · intro a b h; cases b <;> simp_all [consFn, Value.isSeq]
  · intro a h; cases a <;> simp_all [firstFn, Value.isSeq]
  · intro a h; cases a <;> simp_all [secondFn, Value.isSeq]
  · intro a h; cases a <;> simp_all [nextFn, Value.isSeq]

/-- Closed witness for the C9 theorem at concrete inputs. -/
theorem primitives_return_nil_on_bad_input_witness :
    gtFn [Value.int 3] = some Value.nil ∧
    ltFn [] = some Value.nil ∧
    consFn [Value.int 1, Value.int 2] = some Value.nil ∧
    firstFn [Value.int 1] = some Value.nil ∧
    secondFn [Value.keyword "k"] = some Value.nil ∧
    nextFn [Value.bool true] = some Value.nil :=
  ⟨primitives_return_nil_on_bad_input.1 [Value.int 3] (by simp),
   primitives_return_nil_on_bad_input.2.1 [] (by simp),
   primitives_return_nil_on_bad_input.2.2.1 (Value.int 1) (Value.int 2) rfl,
   primitives_return_nil_on_bad_input.2.2.2.1 (Value.int 1) rfl,
   primitives_return_nil_on_bad_input.2.2.2.2.1 (Value.keyword "k") rfl,
   primitives_return_nil_on_bad_input.2.2.2.2.2 (Value.bool true) rfl⟩

/-- Folding the division step of the `/` primitive over nonzero integer
arguments keeps the accumulator at 0. -/
theorem divFold_zero (vs : List Value)
    (h : ∀ w ∈ vs, ∃ m : Int, w = Value.int m ∧ m ≠ 0) :
    vs.foldlM
      (fun n v =>
        match unboxInt v with
        | none => none
        | some m => if m = 0 then none else some (wrap64 (Int.tdiv n m)))
      (0 : Int) = some 0 := by
  induction vs with
  | nil => rfl
  | cons w ws ih =>
    obtain ⟨m, rfl, hm⟩ := h w (by simp)
    have h0 : Int.tdiv 0 m = 0 := Int.zero_tdiv m
    have hw : wrap64 0 = 0 := by norm_num [wrap64]
    simp only [List.foldlM, unboxInt, hm, if_neg hm, h0, hw]
    exact ih (fun w hw => h w (by simp [hw]))

/-- C10: the `/` primitive returns `Nil` on an empty argument list, and
`Integer 0` on any non-empty list of nonzero integers, because its
accumulator starts at 0 and is divided by each argument in turn. -/
theorem div_primitive_zero (v : Value) (vs : List Value)
    (h : ∀ w ∈ v :: vs, ∃ m : Int, w = Value.int m ∧ m ≠ 0) :
    divFn [] = some Value.nil ∧
    divFn (v :: vs) = some (Value.int 0) := by
  refine ⟨rfl, ?_⟩
  simp only [divFn, List.length_cons]
  rw [if_neg (by omega)]
  rw [divFold_zero (v :: vs) h]
  rfl

/-- Closed witness for the C10 theorem at a concrete input. -/
theorem div_primitive_zero_witness :
    divFn [] = some Value.nil ∧
    divFn [Value.int 10, Value.int 3] = some (Value.int 0) :=
  div_primitive_zero (Value.int 10) [Value.int 3]
    (by intro w hw; simp at hw; rcases hw with h | h <;> exact ⟨_, h, by norm_num⟩)

/-- A chunk declaring `maxStack = 1` whose code pushes two constants:
`LDC 0; LDC 0`. -/
def twoPushChunk : Chunk := ⟨1, [Value.nil], [1, 0, 0, 0, 0, 1, 0, 0, 0, 0]⟩

/-- C2: the frame's stack is indeed pre-sized to the chunk's declared
max depth, but the overflow guard in `Push` compares `sp` against
`defaultStackSize-1`, not against that size: on a chunk with
`maxStack = 1`, the second push passes the guard and writes past the
allocated stack — a runtime panic, not an error return. -/
theorem push_overruns_declared_max :
    (NewFrame twoPushChunk []).stack.length = twoPushChunk.maxStack ∧
    run trivialHost 3 ⟨NewFrame twoPushChunk [], []⟩ = .crash "index out of range" :=
  ⟨rfl, rfl⟩

/-- The chunk with no code at all. -/
def emptyChunk : Chunk := ⟨0, [], []⟩

theorem run_empty_chunk_aux (host : Host) :
    ∀ (n k : Nat),
      run host n ⟨⟨[], [], [], [], [], k, 0⟩, []⟩ =
        .timeout ⟨⟨[], [], [], [], [], k + n, 0⟩, []⟩
  | 0, _ => rfl
  | n + 1, k => by
    have ih := run_empty_chunk_aux host n (k + 1)
    simp only [run, step, fetchOp]
    norm_num
    rw [ih, show k + 1 + n = k + (n + 1) from by omega]

/-- C3: `Frame.Run` does NOT return when the instruction pointer passes
the end of the code: the fetch error from `CodeChunk.Get` is discarded
(`inst, _ :=`), the zero byte decodes as NOP, and the loop increments
`ip` forever.  On the empty chunk, after any number `n` of iterations
the loop is still running with `ip = n`. -/
theorem run_past_end_loops_forever (host : Host) (n : Nat) :
    run host n ⟨NewFrame emptyChunk [], []⟩ =
      .timeout ⟨{ NewFrame emptyChunk [] with ip := n }, []⟩ := by
  have := run_empty_chunk_aux host n 0
  simpa [NewFrame, emptyChunk] using this

/-- A chunk that loads the constant `Integer 1` and then invokes it:
`LDC 0; INV 0`. -/
def invokeNonFnChunk : Chunk := ⟨2, [Value.int 1], [1, 0, 0, 0, 0, 3, 0, 0, 0, 0]⟩

/-- C4 counterexample: invoking a non-function at INV aborts the frame
with a `TypeError`, not an `ExecutionError`, so the claim that every
listed fault produces an `ExecutionError` is false on this input. -/
theorem inv_non_function_is_type_error :
    run trivialHost 3 ⟨NewFrame invokeNonFnChunk [], []⟩ =
      .fault (.typeError "is not a function") ∧
    (VmError.typeError "is not a function").isExecutionError = false :=
  ⟨rfl, rfl⟩

/-- A chunk that pushes one constant and then executes `PON 0`:
`LDC 0; PON 0`. -/
def ponZeroChunk : Chunk := ⟨2, [Value.int 7], [1, 0, 0, 0, 0, 9, 0, 0, 0, 0]⟩

/-- C7 counterexample: `PON 0` on a stack of depth exactly `n + 1 = 1`
does not perform the value-preserving unwind — after popping the top,
`Drop(0)` finds the stack empty and errors, so the frame aborts. -/
theorem pon_zero_on_singleton_faults :
    run trivialHost 3 ⟨NewFrame ponZeroChunk [], []⟩ =
      .fault (.executionError "PON drop"
        (some (.executionError "Drop: stack underflow" none))) :=
  rfl

/-- C5: branch offsets are added to the instruction pointer while it
still addresses the opcode byte of the branch itself: JMP sets
`ip := ip + off` unconditionally; BRF pops the top and goes to
`ip + off` when it is falsy and to `ip + 5` otherwise; BRT pops and
goes to `ip + off` when it is truthy and to `ip + 5` otherwise. -/
theorem branch_offset_relative_to_opcode (host : Host) (fr : Frame)
    (vars : List Value) (off : Nat)
    (harg : chunkGet32 fr.code (fr.ip + 1) = .ok off)
    (hlen : fr.sp ≤ fr.stack.length) :
    (fetchOp fr.code fr.ip = OPJMP →
      step host ⟨fr, vars⟩ = .next ⟨{ fr with ip := fr.ip + off }, vars⟩) ∧
    (fetchOp fr.code fr.ip = OPBRF → 1 ≤ fr.sp →
      step host ⟨fr, vars⟩ = .next ⟨{ fr with sp := fr.sp - 1, ip := if IsTruthy (fr.stack.getD (fr.sp - 1) Value.nil) then fr.ip + 5 else fr.ip + off }, vars⟩) ∧
    (fetchOp fr.code fr.ip = OPBRT → 1 ≤ fr.sp →
      step host ⟨fr, vars⟩ = .next ⟨{ fr with sp := fr.sp - 1, ip := if IsTruthy (fr.stack.getD (fr.sp - 1) Value.nil) then fr.ip + off else fr.ip + 5 }, vars⟩) := by
  refine ⟨?_, ?_, ?_⟩
  · intro hop
    simp only [step]
    rw [hop]
    simp only [OPJMP]
    rw [harg]
  · intro hop h1
    simp only [step]
    rw [hop]
    simp only [OPBRF]
    rw [harg, Frame.pop_ok fr (by omega) (by omega)]
    by_cases hT : IsTruthy (fr.stack[fr.sp - 1]?.getD Value.nil) <;>
      simp [List.getD_eq_getElem?_getD, hT]
  · intro hop h1
    simp only [step]
    rw [hop]
    simp only [OPBRT]
    rw [harg, Frame.pop_ok fr (by omega) (by omega)]
    by_cases hT : IsTruthy (fr.stack[fr.sp - 1]?.getD Value.nil) <;>
      simp [List.getD_eq_getElem?_getD, hT]

/-- A concrete frame used by the branch witness: one truthy value on
the stack, branch opcode `op` at `ip = 0` with offset 20. -/
def branchFrame (op : Nat) : Frame :=
  ⟨[Value.bool true], [], [], [], [op, 20, 0, 0, 0], 0, 1⟩

/-- Closed witness for the C5 theorem: JMP jumps by the offset, BRT on
a truthy top takes the offset, BRF on a truthy top falls through. -/
theorem branch_offset_relative_to_opcode_witness :
    step trivialHost ⟨branchFrame OPJMP, []⟩ =
      .next ⟨{ branchFrame OPJMP with ip := 20 }, []⟩ ∧
    step trivialHost ⟨branchFrame OPBRF, []⟩ =
      .next ⟨{ branchFrame OPBRF with sp := 0, ip := 5 }, []⟩ ∧
    step trivialHost ⟨branchFrame OPBRT, []⟩ =
      .next ⟨{ branchFrame OPBRT with sp := 0, ip := 20 }, []⟩ := by
  refine ⟨?_, ?_, ?_⟩
  · exact (branch_offset_relative_to_opcode trivialHost (branchFrame OPJMP) [] 20
      rfl (by decide)).1 rfl
  · have h := (branch_offset_relative_to_opcode trivialHost (branchFrame OPBRF) [] 20
      rfl (by decide)).2.1 rfl (by decide)
    simpa using h
  · have h := (branch_offset_relative_to_opcode trivialHost (branchFrame OPBRT) [] 20
      rfl (by decide)).2.2 rfl (by decide)
    simpa using h

/-- C6: STV on a stack whose top is `v` and whose second value is a Var
pops both, stores `v` as the Var's new root, and pushes the Var (not
`v`) back: the stack is one cell shorter, the Var is on top, and the
Var's root is now `v`. -/
theorem stv_stores_and_pushes_var (host : Host) (fr : Frame)
    (vars : List Value) (id : Nat)
    (hop : fetchOp fr.code fr.ip = OPSTV)
    (h2 : 2 ≤ fr.sp)
    (hlen : fr.sp ≤ fr.stack.length)
    (hcap : fr.sp ≤ 31)
    (hvar : fr.stack.getD (fr.sp - 2) Value.nil = Value.varRef id)
    (hid : id < vars.length) :
    step host ⟨fr, vars⟩ = .next ⟨{ fr with stack := fr.stack.set (fr.sp - 2) (Value.varRef id), sp := fr.sp - 1, ip := fr.ip + 1 }, vars.set id (fr.stack.getD (fr.sp - 1) Value.nil)⟩ ∧
    (vars.set id (fr.stack.getD (fr.sp - 1) Value.nil)).getD id Value.nil = fr.stack.getD (fr.sp - 1) Value.nil ∧
    (fr.stack.set (fr.sp - 2) (Value.varRef id)).getD (fr.sp - 2) Value.nil = Value.varRef id := by
  refine ⟨?_, ?_, ?_⟩
  · simp only [step]
    rw [hop]
    simp only [OPSTV]
    rw [Frame.pop_ok fr (by omega) (by omega)]
    simp only
    rw [Frame.pop_ok { fr with sp := fr.sp - 1 } (by simp; omega) (by simp; omega)]
    simp only
    rw [show fr.sp - 1 - 1 = fr.sp - 2 from by omega, hvar]
    simp only
    rw [Frame.push_ok { fr with sp := fr.sp - 2 } (Value.varRef id) (by simp [defaultStackSize]; omega) (by simp; omega)]
    simp only
    rw [show fr.sp - 2 + 1 = fr.sp - 1 from by omega]
  · rw [List.getD_eq_getElem?_getD, List.getElem?_set_eq_of_lt _ hid]
    rfl
  · rw [List.getD_eq_getElem?_getD, List.getElem?_set_eq_of_lt _ (by omega)]
    rfl

/-- A concrete frame for the STV witness: stack `[Var 0, Integer 42]`
(Var below, value on top), STV at `ip = 0`. -/
def stvFrame : Frame := ⟨[Value.varRef 0, Value.int 42], [], [], [], [11], 0, 2⟩

/-- Closed witness for the C6 theorem: after STV the store holds 42 at
Var 0 and the Var is back on a one-shorter stack. -/
theorem stv_stores_and_pushes_var_witness :
    step trivialHost ⟨stvFrame, [Value.nil]⟩ = .next ⟨{ stvFrame with stack := [Value.varRef 0, Value.int 42], sp := 1, ip := 1 }, [Value.int 42]⟩ := by
  have h := (stv_stores_and_pushes_var trivialHost stvFrame [Value.nil] 0
    rfl (by decide) (by decide) (by decide) rfl (by decide)).1
  simpa using h

/-- C7 amended: PON with operand `n` saves the top `t`, drops the `n`
values below it and pushes `t` back — the stack shrinks by exactly `n`
cells, its new top equals the old top, and every cell below the dropped
region is unchanged — PROVIDED the stack holds at least `n + 1` values
and at least 2 values; with `n = 0` on a stack of depth exactly 1 the
instruction instead aborts with a stack-underflow `ExecutionError`
(see the counterexample), because `Drop` rejects an empty stack even
when asked to drop nothing. -/
theorem pon_value_preserving_unwind (host : Host) (fr : Frame)
    (vars : List Value) (n : Nat)
    (hop : fetchOp fr.code fr.ip = OPPON)
    (harg : chunkGet32 fr.code (fr.ip + 1) = .ok n)
    (hn : n + 1 ≤ fr.sp) (h2 : 2 ≤ fr.sp)
    (hlen : fr.sp ≤ fr.stack.length) (hcap : fr.sp ≤ 31) :
    step host ⟨fr, vars⟩ = .next ⟨{ fr with stack := fr.stack.set (fr.sp - 1 - n) (fr.stack.getD (fr.sp - 1) Value.nil), sp := fr.sp - n, ip := fr.ip + 5 }, vars⟩ ∧
    (fr.stack.set (fr.sp - 1 - n) (fr.stack.getD (fr.sp - 1) Value.nil)).getD (fr.sp - n - 1) Value.nil = fr.stack.getD (fr.sp - 1) Value.nil ∧
    (∀ i, i < fr.sp - 1 - n → (fr.stack.set (fr.sp - 1 - n) (fr.stack.getD (fr.sp - 1) Value.nil)).getD i Value.nil = fr.stack.getD i Value.nil) := by
  refine ⟨?_, ?_, ?_⟩
  · simp only [step]
    rw [hop]
    simp only [OPPON]
    rw [Frame.pop_ok fr (by omega) (by omega)]
    simp only
    rw [harg]
    simp only
    rw [Frame.dropN_ok { fr with sp := fr.sp - 1 } n (by simp; omega) (by simp; omega)]
    simp only
    rw [Frame.push_ok { fr with sp := fr.sp - 1 - n } _ (by simp [defaultStackSize]; omega) (by simp; omega)]
    simp only
    rw [show fr.sp - 1 - n + 1 = fr.sp - n from by omega]
  · rw [show fr.sp - n - 1 = fr.sp - 1 - n from by omega,
       List.getD_eq_getElem?_getD, List.getElem?_set_eq_of_lt _ (by omega)]
    rfl
  · intro i hi
    rw [List.getD_eq_getElem?_getD, List.getElem?_set_ne (by omega),
       ← List.getD_eq_getElem?_getD]

/-- A concrete frame for the PON witness: stack `[1, 2, 7]` with the
top 7, `PON 2` at `ip = 0`. -/
def ponFrame : Frame :=
  ⟨[Value.int 1, Value.int 2, Value.int 7], [], [], [], [9, 2, 0, 0, 0], 0, 3⟩

/-- Closed witness for the amended C7 theorem: `PON 2` on `[1, 2, 7]`
leaves a one-deep stack whose top is the old top 7. -/
theorem pon_value_preserving_unwind_witness :
    step trivialHost ⟨ponFrame, []⟩ = .next ⟨{ ponFrame with stack := [Value.int 7, Value.int 2, Value.int 7], sp := 1, ip := 5 }, []⟩ := by
  have h := (pon_value_preserving_unwind trivialHost ponFrame [] 2
    rfl rfl (by decide) (by decide) (by decide) (by decide)).1
  simpa using h

/-- C1: OPINV with operand arity `n`, on a stack holding at least
`n + 1` values whose value at depth `n` is a function, invokes that
function on the `n` values above it in stack order (deepest argument
first), removes all `n + 1` cells, pushes the returned value, and
advances the instruction pointer by 5.  (The net stack effect of
removing `n + 1` cells and pushing the result is `sp - n`, with the
result written at depth 0 of the new stack.) -/
theorem inv_invokes_and_replaces (host : Host) (fr : Frame)
    (vars : List Value) (n fid : Nat)
    (hop : fetchOp fr.code fr.ip = OPINV)
    (harg : chunkGet32 fr.code (fr.ip + 1) = .ok n)
    (hn : n + 1 ≤ fr.sp)
    (hlen : fr.sp ≤ fr.stack.length)
    (hcap : fr.sp ≤ 31)
    (hfn : (fr.stack.getD (fr.sp - 1 - n) Value.nil).invokeFn = some fid) :
    step host ⟨fr, vars⟩ = .next ⟨{ fr with stack := fr.stack.set (fr.sp - 1 - n) (host fid ((fr.stack.take fr.sp).drop (fr.sp - n))), sp := fr.sp - n, ip := fr.ip + 5 }, vars⟩ ∧
    (fr.stack.set (fr.sp - 1 - n) (host fid ((fr.stack.take fr.sp).drop (fr.sp - n)))).getD (fr.sp - n - 1) Value.nil = host fid ((fr.stack.take fr.sp).drop (fr.sp - n)) ∧
    ((fr.stack.take fr.sp).drop (fr.sp - n)).length = n := by
  refine ⟨?_, ?_, ?_⟩
  · simp only [step]
    rw [hop]
    simp only [OPINV]
    rw [harg]
    simp only
    rw [Frame.nth_ok fr n hn hlen]
    simp only
    rw [hfn]
    simp only
    rw [Frame.mult_ok fr n (by omega) hlen]
    simp only
    rw [Frame.dropN_ok fr (n + 1) (by omega) hn]
    simp only
    rw [Frame.push_ok { fr with sp := fr.sp - (n + 1) } _ (by simp [defaultStackSize]; omega) (by simp; omega)]
    simp only
    rw [show fr.sp - (n + 1) = fr.sp - 1 - n from by omega,
       show fr.sp - 1 - n + 1 = fr.sp - n from by omega]
  · rw [show fr.sp - n - 1 = fr.sp - 1 - n from by omega,
       List.getD_eq_getElem?_getD, List.getElem?_set_eq_of_lt _ (by omega)]
    rfl
  · rw [List.length_drop, List.length_take]
    omega

/-- A concrete frame for the INV witness: stack
`[native function 5, 10, 20]` and `INV 2` at `ip = 0`. -/
def invFrame : Frame :=
  ⟨[Value.nativeFn 5, Value.int 10, Value.int 20], [], [], [], [3, 2, 0, 0, 0], 0, 3⟩

/-- Closed witness for the C1 theorem: `INV 2` pops the callee and both
arguments and pushes the host's result (here `NIL`). -/
theorem inv_invokes_and_replaces_witness :
    step trivialHost ⟨invFrame, []⟩ = .next ⟨{ invFrame with stack := [Value.nil, Value.int 10, Value.int 20], sp := 1, ip := 5 }, []⟩ := by
  have h := (inv_invokes_and_replaces trivialHost invFrame [] 2 5
    rfl rfl (by decide) (by decide) (by decide) rfl).1
  simpa [trivialHost] using h

/-- C4 amended: every fault the interpreter loop returns aborts the
frame with an `ExecutionError`, EXCEPT the type mismatch at INV (a
non-function callee), which aborts it with a `TypeError`; the
out-of-bounds opcode fetch produces no fault at all (its error is
discarded and the zero byte executes as NOP — see the C3 theorem). -/
theorem step_faults_are_execution_errors (host : Host) (s : Mach)
    (e : VmError) (h : step host s = .fault e) :
    e.isExecutionError = true ∨ e = .typeError "is not a function" := by
  set_option maxHeartbeats 1000000 in
  simp only [step] at h
  repeat' split at h
  all_goals first
    | (injection h with h; subst h; left; rfl)
    | (injection h with h; subst h; right; rfl)
    | simp_all [VmError.isExecutionError]

/-- Closed witness for the amended C4 theorem, at a frame whose next
byte is the unknown opcode 15. -/
theorem step_faults_are_execution_errors_witness :
    (VmError.executionError "unknown instruction" none).isExecutionError = true ∨
    (VmError.executionError "unknown instruction" none) = .typeError "is not a function" :=
  step_faults_are_execution_errors trivialHost ⟨⟨[], [], [], [], [15], 0, 0⟩, []⟩
    (.executionError "unknown instruction" none) rfl

end LetGo
